import Mathlib

/-!
Verification development for the fluentrest-ts request pipeline.

Shallow embedding of the request-construction-and-validation core:
the proxy-resolving request builder (`src/core/request-builder.ts`),
the outcome-normalizing executor (`src/core/request-executor.ts`),
the level-gated logger (`src/core/logger.ts`), the assertion helpers
(`src/assertions/assertions.ts`), the JSONPath extraction helper
(`src/core/utils.ts`), and the response validator
(`src/core/response-validator.ts` / its full variant with
`runAssertions` and `getErrorBody`).

External collaborators (axios transport, jsonpath-plus, qs, Joi,
`fs`/FormData) are modelled as explicit capability parameters or as
faithful pure models of the behavior the core relies on, following
the spec's treatment of them as pluggable capabilities.
-/

namespace FluentRest

/-- Model of a JavaScript value as it travels through the pipeline
(request bodies, response bodies, JSONPath results). Objects are
insertion-ordered key/value lists, mirroring JS object semantics. -/
inductive JsValue where
  | vStr (s : String)
  | vNum (n : Int)
  | vBool (b : Bool)
  | vNull
  | vUndefined
  | vArr (xs : List JsValue)
  | vObj (fields : List (String × JsValue))

/-- JS truthiness of a value (used by `formatError`'s `responseBody ?`
check and by `applyProxy`'s `proxy.host && proxy.port`). -/
def jsTruthy : JsValue → Bool
  | .vStr s => s ≠ ""
  | .vNum n => n ≠ 0
  | .vBool b => b
  | .vNull => false
  | .vUndefined => false
  | .vArr _ => true
  | .vObj _ => true

/-- Escape one character for a JSON string literal. -/
def jsonEscapeChar (c : Char) : String :=
  if c = '"' then "\\\""
  else if c = '\\' then "\\\\"
  else if c = '\n' then "\\n"
  else String.singleton c

/-- JSON string quoting used by `jsonStringify`. -/
def jsonQuote (s : String) : String :=
  "\"" ++ String.join (s.data.map jsonEscapeChar) ++ "\""

mutual
/-- Model of `JSON.stringify` (no indentation argument). String escaping
is modelled for quote, backslash and newline; other control-character
escapes are not exercised by any property below. -/
def jsonStringify : JsValue → String
  | .vStr s => jsonQuote s
  | .vNum n => toString n
  | .vBool b => if b then "true" else "false"
  | .vNull => "null"
  | .vUndefined => "null"
  | .vArr xs => "[" ++ jsonStringifyArr xs ++ "]"
  | .vObj fs => "\x7b" ++ jsonStringifyFields fs ++ "\x7d"

def jsonStringifyArr : List JsValue → String
  | [] => ""
  | [x] => jsonStringify x
  | x :: rest => jsonStringify x ++ "," ++ jsonStringifyArr rest

def jsonStringifyFields : List (String × JsValue) → String
  | [] => ""
  | [(k, v)] => jsonQuote k ++ ":" ++ jsonStringify v
  | (k, v) :: rest => jsonQuote k ++ ":" ++ jsonStringify v ++ "," ++ jsonStringifyFields rest
end

/-- Model of JS strict equality `===` as used by the assertions.
Primitive values compare by value; object and array operands model
distinct heap references and therefore compare unequal (in JS, `===`
on two objects is true only under aliasing, which the assertion API
does not produce). -/
def strictEqb : JsValue → JsValue → Bool
  | .vStr a, .vStr b => a = b
  | .vNum a, .vNum b => a = b
  | .vBool a, .vBool b => a = b
  | .vNull, .vNull => true
  | .vUndefined, .vUndefined => true
  | _, _ => false

mutual
/-- Model of JS string coercion `String(v)` as performed by template
literals in assertion messages. -/
def jsDisplay : JsValue → String
  | .vStr s => s
  | .vNum n => toString n
  | .vBool b => if b then "true" else "false"
  | .vNull => "null"
  | .vUndefined => "undefined"
  | .vArr xs => jsDisplayList xs
  | .vObj _ => "[object Object]"

/-- Model of `Array.prototype.toString`: elements joined by commas. -/
def jsDisplayList : List JsValue → String
  | [] => ""
  | [x] => jsDisplay x
  | x :: rest => jsDisplay x ++ "," ++ jsDisplayList rest
end

/-- Decide whether `pat` occurs at the start of `l`. -/
def seqStartsWith : List Char → List Char → Bool
  | _, [] => true
  | [], _ :: _ => false
  | a :: as, b :: bs => a = b && seqStartsWith as bs

/-- Decide whether `pat` occurs contiguously anywhere in `l`. -/
def seqContains : List Char → List Char → Bool
  | [], pat => seqStartsWith [] pat
  | l@(_ :: rest), pat => seqStartsWith l pat || seqContains rest pat

/-- Model of `String.prototype.startsWith`. -/
def strStartsWith (s pat : String) : Bool :=
  seqStartsWith s.data pat.data

/-- Substring test modelling `String.prototype.includes`. -/
def strContains (hay pat : String) : Bool :=
  seqContains hay.data pat.data

/-! ## Logger (`src/core/logger.ts`)

The logger's observable behavior for the properties below is *which*
entries it emits, as a function of the configured level and of the
entry's required level; the console/file sinks themselves are external
side effects and are modelled by the emitted labels. -/

/-- Log levels: `type LogLevel = "debug" | "info" | "none"` from `src/core/logger.ts`. -/
inductive LogLevel where
  | none
  | info
  | debug
deriving DecidableEq, Repr

/-- The numeric ranks from `shouldLog`'s table
`const levels = \x7b none: 0, info: 1, debug: 2 \x7d`. -/
def levelRank : LogLevel → Nat
  | .none => 0
  | .info => 1
  | .debug => 2

/-- Source `shouldLog(current, required)` from `src/core/logger.ts`:
`levels[current] >= levels[required]`. -/
def shouldLog (current required : LogLevel) : Bool :=
  levelRank current ≥ levelRank required

/-- Source `log(label, data, logLevel, logToFile, level)`: emits the labelled
entry iff `shouldLog(logLevel, level)`; modelled as the list of labels
written to the console sink. -/
def logEmit (label : String) (logLevel : LogLevel) (level : LogLevel) : List String :=
  if shouldLog logLevel level then [label] else []

/-- Source `logRequest` forwards to `log(..., "info")` ("Request" label). -/
def logRequestEvents (logLevel : LogLevel) : List String :=
  logEmit "Request" logLevel .info

/-- Source `logResponse` forwards to `log(..., "info")` ("Response" label). -/
def logResponseEvents (logLevel : LogLevel) : List String :=
  logEmit "Response" logLevel .info

/-- Source `logError(error, label, logLevel, logToFile, ...)` from
`src/core/logger.ts` lines 138-149: it formats the error and then calls
`log(label, \x7b message \x7d, logLevel, logToFile, "debug")`, i.e. it
requests the entry at required level `"debug"`. -/
def logErrorEvents (label : String) (logLevel : LogLevel) : List String :=
  logEmit label logLevel .debug

/-! ## Proxy specifications and the request builder
(`src/core/request-builder.ts`, `src/core/config.ts`) -/

/-- Model of an `AxiosProxyConfig` object as accepted at the boundary:
`\x7b host, port, auth?, protocol? \x7d`. Absent properties are `none`;
present-but-falsy values (empty host string, port `0`) are modelled by
the carried value, since `setProxy`/`applyProxy` test JS truthiness. -/
structure ClassicProxy where
  host : Option String := Option.none
  port : Option Nat := Option.none
  authUsername : Option String := Option.none
  authPassword : Option String := Option.none
  protocol : Option String := Option.none
deriving DecidableEq, Repr

/-- JS truthiness of the `host` property. -/
def ClassicProxy.hostTruthy (p : ClassicProxy) : Bool :=
  match p.host with
  | Option.none => false
  | Option.some s => s ≠ ""

/-- JS truthiness of the `port` property. -/
def ClassicProxy.portTruthy (p : ClassicProxy) : Bool :=
  match p.port with
  | Option.none => false
  | Option.some n => n ≠ 0

/-- Model of `new HttpsProxyAgent(proxy)`: an external tunneling agent,
identified by the proxy URL it was constructed from. -/
structure Agent where
  proxyUrl : String
deriving DecidableEq, Repr

/-- Source `type ProxyConfig = AxiosProxyConfig | string` from
`src/core/config.ts`. -/
inductive ProxyConfig where
  | url (s : String)
  | classic (p : ClassicProxy)
deriving DecidableEq, Repr

/-- Body payload stored in `config.data`. JSON and form-urlencoded
branches store strings; the default branch stores the payload
unmodified; multipart stores a `FormData` with its appended parts. -/
inductive MultipartEntry where
  | fileStream (path : String)
  | literal (v : JsValue)

/-- Contents of `config.data` after `givenBody`. -/
inductive BodyData where
  | str (s : String)
  | val (v : JsValue)
  | form (parts : List (String × MultipartEntry))

/-- Header/param maps: JS object spread `\x7b ...m, [k]: v \x7d` keeps the
existing insertion position of `k` when present (overwriting its value)
and appends `k` otherwise. -/
def objSet (m : List (String × String)) (k v : String) : List (String × String) :=
  if m.any (fun kv => kv.1 = k) then
    m.map (fun kv => if kv.1 = k then (kv.1, v) else kv)
  else
    m ++ [(k, v)]

/-- Lookup in a header/param map. -/
def objGet (m : List (String × String)) (k : String) : Option String :=
  (m.find? (fun kv => kv.1 = k)).map (fun kv => kv.2)

/-- Model of the `Partial<AxiosRequestConfig>` record accumulated by the
builder and consumed by the executor. `validateStatus` is kept as a
predicate on status codes. -/
structure RequestConfig where
  method : Option String := Option.none
  url : Option String := Option.none
  baseURL : Option String := Option.none
  timeout : Option Nat := Option.none
  headers : List (String × String) := []
  params : List (String × String) := []
  data : Option BodyData := Option.none
  proxy : Option ClassicProxy := Option.none
  httpAgent : Option Agent := Option.none
  httpsAgent : Option Agent := Option.none

/-- State of a `RequestBuilder` instance: its `config` record plus the
private `proxyOverride` / `proxyAgent` fields and the logging flags. -/
structure BuilderState where
  config : RequestConfig := {}
  proxyOverride : Option ClassicProxy := Option.none
  proxyAgent : Option Agent := Option.none
  logLevel : LogLevel := .info
  logToFile : Bool := false

/-- Source `RequestBuilder.applyProxy(proxy)` (lines 36-63):
absent proxy is a no-op; a URL string builds a tunneling agent and
assigns it protocol-aware (`https://` URL to `httpsAgent` only, else to
`httpAgent` only), clearing `proxyOverride`; a classic object with
truthy `host` and `port` installs `config.proxy`, clearing `proxyAgent`
and both agent entries of `config`. Note the URL branch does not touch
`config.proxy`. -/
def applyProxy (st : BuilderState) : Option ProxyConfig → BuilderState
  | Option.none => st
  | Option.some (.url s) =>
    let agent : Agent := ⟨s⟩
    let isHttpsProxy := strStartsWith s "https://"
    { st with
      proxyAgent := Option.some agent,
      proxyOverride := Option.none,
      config := { st.config with
        httpAgent := if isHttpsProxy then Option.none else Option.some agent,
        httpsAgent := if isHttpsProxy then Option.some agent else Option.none } }
  | Option.some (.classic p) =>
    if p.hostTruthy && p.portTruthy then
      { st with
        proxyOverride := Option.some p,
        proxyAgent := Option.none,
        config := { st.config with
          httpAgent := Option.none,
          httpsAgent := Option.none,
          proxy := Option.some p } }
    else st

/-- Validation errors raised by `setProxy`. -/
inductive ProxyError where
  | invalidProxyUrl
  | invalidProxyConfig
deriving DecidableEq, Repr

/-- Model of the regex test `/^https?:\/\//.test(proxy)`. -/
def matchesHttpScheme (s : String) : Bool :=
  strStartsWith s "http://" || strStartsWith s "https://"

/-- Source `RequestBuilder.setProxy(proxy)` (lines 88-100): a string not
matching `^https?://` raises the invalid-URL error, a non-string whose
`host` or `port` is falsy raises the invalid-config error, both before
any mutation; otherwise the input is installed via `applyProxy`. -/
def setProxy (st : BuilderState) (proxy : ProxyConfig) : Except ProxyError BuilderState :=
  match proxy with
  | .url s =>
    if !matchesHttpScheme s then
      .error .invalidProxyUrl
    else
      .ok (applyProxy st (Option.some proxy))
  | .classic p =>
    if !p.hostTruthy || !p.portTruthy then
      .error .invalidProxyConfig
    else
      .ok (applyProxy st (Option.some proxy))

/-- Source `RequestBuilder.clearProxy()`: removes both directive forms. -/
def clearProxy (st : BuilderState) : BuilderState :=
  { st with
    proxyOverride := Option.none,
    proxyAgent := Option.none,
    config := { st.config with
      proxy := Option.none,
      httpAgent := Option.none,
      httpsAgent := Option.none } }

/-- Source `RequestBuilder.getConfig()` (lines 307-313): spreads
`this.config`, then `\x7b proxy \x7d` when `proxyOverride` is set, then —
when `proxyAgent` is set — `\x7b httpAgent: agent, httpsAgent: agent \x7d`,
i.e. the agent is reported on both protocol paths. -/
def getConfig (st : BuilderState) : RequestConfig :=
  let c := st.config
  let c := match st.proxyOverride with
    | Option.some p => { c with proxy := Option.some p }
    | Option.none => c
  match st.proxyAgent with
  | Option.some a => { c with httpAgent := Option.some a, httpsAgent := Option.some a }
  | Option.none => c

/-- Source `RequestBuilder.givenHeader(key, value)`:
`this.config.headers = \x7b ...this.config.headers, [key]: value \x7d`. -/
def givenHeader (st : BuilderState) (key value : String) : BuilderState :=
  { st with config := { st.config with headers := objSet st.config.headers key value } }

/-- Source `RequestBuilder.givenQueryParam(key, value)`. -/
def givenQueryParam (st : BuilderState) (key value : String) : BuilderState :=
  { st with config := { st.config with params := objSet st.config.params key value } }

/-! ### Form encoding (model of the external `qs.stringify`)

The spec treats form encoding as an external capability ("serialize
maps with a form-encoding algorithm"). `qs.stringify` is modelled for
the value shapes the builder feeds it: objects/arrays are flattened to
bracket-indexed key paths and each key and value is percent-encoded
over its UTF-8 bytes with the RFC 3986 unreserved set kept literal. -/

/-- UTF-8 encoding of one character (byte values as naturals). -/
def utf8Bytes (c : Char) : List Nat :=
  let n := c.toNat
  if n < 0x80 then [n]
  else if n < 0x800 then [0xC0 + n / 0x40, 0x80 + n % 0x40]
  else if n < 0x10000 then
    [0xE0 + n / 0x1000, 0x80 + (n / 0x40) % 0x40, 0x80 + n % 0x40]
  else
    [0xF0 + n / 0x40000, 0x80 + (n / 0x1000) % 0x40,
     0x80 + (n / 0x40) % 0x40, 0x80 + n % 0x40]

/-- Uppercase hexadecimal digit. -/
def hexDigit (n : Nat) : Char :=
  if n < 10 then Char.ofNat (48 + n) else Char.ofNat (55 + n)

/-- Percent-encoding of one byte. -/
def percentByte (b : Nat) : String :=
  String.mk ['%', hexDigit (b / 16), hexDigit (b % 16)]

/-- Bytes kept literal by the encoder (RFC 3986 unreserved set). -/
def unreservedByte (b : Nat) : Bool :=
  (48 ≤ b && b ≤ 57) || (65 ≤ b && b ≤ 90) || (97 ≤ b && b ≤ 122) ||
  b = 45 || b = 46 || b = 95 || b = 126

/-- Percent-encode a string over its UTF-8 bytes. -/
def urlEncode (s : String) : String :=
  String.join (s.data.map (fun c =>
    String.join ((utf8Bytes c).map (fun b =>
      if unreservedByte b then String.singleton (Char.ofNat b) else percentByte b))))

/-- Scalar rendering used by the form encoder. -/
def qsScalarString : JsValue → String
  | .vStr s => s
  | .vNum n => toString n
  | .vBool b => if b then "true" else "false"
  | .vNull => ""
  | v => jsDisplay v

/-- Bracketed sub-key path used by the form encoder. -/
def qsKey (pfx k : String) : String :=
  if pfx = "" then k else pfx ++ "[" ++ k ++ "]"

mutual
/-- Flatten a value into ordered key/value pairs, qs-style. -/
def qsPairs : String → JsValue → List (String × String)
  | _, .vUndefined => []
  | pfx, .vObj fs => qsPairsFields pfx fs
  | pfx, .vArr xs => qsPairsArr pfx 0 xs
  | pfx, v => [(pfx, qsScalarString v)]

def qsPairsFields : String → List (String × JsValue) → List (String × String)
  | _, [] => []
  | pfx, (k, v) :: rest => qsPairs (qsKey pfx k) v ++ qsPairsFields pfx rest

def qsPairsArr : String → Nat → List JsValue → List (String × String)
  | _, _, [] => []
  | pfx, i, v :: rest =>
    qsPairs (pfx ++ "[" ++ toString i ++ "]") v ++ qsPairsArr pfx (i + 1) rest
end

/-- Model of `qs.stringify(body)` for builder payloads. -/
def qsStringify (v : JsValue) : String :=
  String.intercalate "&"
    ((qsPairs "" v).map (fun kv => urlEncode kv.1 ++ "=" ++ urlEncode kv.2))

/-! ### Body dispatch -/

/-- Model of `form.getHeaders()` from the external FormData library:
a lowercase content-type entry carrying the generated boundary. -/
def formDataHeaders (boundary : String) : List (String × String) :=
  [("content-type", "multipart/form-data; boundary=" ++ boundary)]

/-- Enumerate `for (const key in body)` for the payload shapes the
multipart branch receives (plain objects). -/
def jsOwnEntries : JsValue → List (String × JsValue)
  | .vObj fs => fs
  | _ => []

/-- Source `RequestBuilder.givenBody(body, contentType)` (lines 137-173).
`fileExists` models `fs.existsSync` and `boundary` the FormData
boundary, both external capabilities. The JSON branch stores strings
verbatim and `JSON.stringify`s everything else; the form-urlencoded
branch stores strings verbatim and `qs.stringify`s everything else; the
multipart branch appends a file stream or the literal value per field
and merges the boundary header; any other content type stores the
payload unmodified. Except for multipart, the `Content-Type` header is
then set to the given content type. -/
def givenBody (fileExists : JsValue → Bool) (boundary : String)
    (st : BuilderState) (body : JsValue)
    (contentType : String := "application/json") : BuilderState :=
  let st :=
    if contentType = "application/json" then
      { st with config := { st.config with
          data := Option.some (.str (match body with
            | .vStr s => s
            | b => jsonStringify b)) } }
    else if contentType = "application/x-www-form-urlencoded" then
      { st with config := { st.config with
          data := Option.some (.str (match body with
            | .vStr s => s
            | b => qsStringify b)) } }
    else if contentType = "multipart/form-data" then
      let parts := (jsOwnEntries body).map (fun kv =>
        if fileExists kv.2 then
          (kv.1, MultipartEntry.fileStream (qsScalarString kv.2))
        else
          (kv.1, MultipartEntry.literal kv.2))
      { st with config := { st.config with
          data := Option.some (.form parts),
          headers := (formDataHeaders boundary).foldl
            (fun hs kv => objSet hs kv.1 kv.2) st.config.headers } }
    else
      { st with config := { st.config with data := Option.some (.val body) } }
  if contentType ≠ "multipart/form-data" then
    { st with config := { st.config with
        headers := objSet st.config.headers "Content-Type" contentType } }
  else st

/-! ## HTTP exchange model (axios) and the executor
(`src/core/request-executor.ts`) -/

/-- Response object carried by a resolved axios promise:
status, status text, headers (axios lowercases header names), body. -/
structure AxiosResp where
  status : Nat
  statusText : String := ""
  headers : List (String × String) := []
  data : JsValue := .vNull

/-- Error raised by a rejected axios promise: a message and, when the
server answered but validation rejected the status, the response. -/
structure AxiosError where
  message : String
  responseAttached : Option AxiosResp := Option.none

/-- What the network does for one exchange: either the server answers
with a response (any status), or the transport fails before a response
exists (DNS, connection refusal, timeout, cancellation). -/
inductive TransportBehavior where
  | respond (r : AxiosResp)
  | fail (message : String)

/-- Model of `axios.request(fullConfig)`: a served response resolves
iff `validateStatus(status)` holds and otherwise rejects with the
response attached to the error; a transport failure always rejects with
no response attached. -/
def axiosRequest (validateStatus : Nat → Bool) :
    TransportBehavior → Except AxiosError AxiosResp
  | .respond r =>
    if validateStatus r.status then
      .ok r
    else
      .error { message := "Request failed with status code " ++ toString r.status,
               responseAttached := Option.some r }
  | .fail msg => .error { message := msg, responseAttached := Option.none }

/-- State held by a `ResponseValidatorImpl` (the full variant with
`getErrorBody` and `runAssertions`): the optional response, the
optional captured error, the request config used, the logging flags
and the optional proxy fields of its constructor. -/
structure ValidatorState where
  response : Option AxiosResp
  error : Option AxiosError
  config : Option RequestConfig
  logLevel : LogLevel := .info
  logToFile : Bool := false
  proxyOverride : Option ClassicProxy := Option.none
  proxyAgent : Option Agent := Option.none

/-- Source `RequestExecutor.send(method, endpoint)` (lines 25-47): build
`fullConfig` from the stored config with the method, endpoint and
`validateStatus: () => true`; run axios on it; on resolution wrap the
response with no error, on rejection capture the error and its attached
response (if any). The returned validator is the total result — the
promise itself never rejects. -/
def RequestExecutor.send (config : RequestConfig) (logLevel : LogLevel)
    (logToFile : Bool) (method endpoint : String)
    (net : TransportBehavior) : ValidatorState :=
  let fullConfig := { config with
    method := Option.some method, url := Option.some endpoint }
  match axiosRequest (fun _ => true) net with
  | .ok r =>
    { response := Option.some r, error := Option.none,
      config := Option.some fullConfig,
      logLevel := logLevel, logToFile := logToFile }
  | .error err =>
    { response := err.responseAttached, error := Option.some err,
      config := Option.some fullConfig,
      logLevel := logLevel, logToFile := logToFile }

/-- Log entries produced by one `send` (lines 36-44): the request
summary, then either the response summary (resolution — which, under
`validateStatus: () => true`, is every served response) or the
`"Request Failed"` error entry (rejection). -/
def sendLogEvents (logLevel : LogLevel) (net : TransportBehavior) : List String :=
  logRequestEvents logLevel ++
    match axiosRequest (fun _ => true) net with
    | .ok _ => logResponseEvents logLevel
    | .error _ => logErrorEvents "Request Failed" logLevel

/-! ## Error formatting and assertions
(`src/core/logger.ts` `formatError`, `src/assertions/assertions.ts`) -/

/-- Model of the V8 `Error#stack` the assertions embed via
`error?.stack`: it begins with `"Error: " + message`; the call-site
frames that follow are environment noise and are not modelled. -/
def errorStack (message : String) : String :=
  "Error: " ++ message

/-- Source `formatError(message, error, responseBody?, errorCode?)`
(`src/core/logger.ts`): `codePrefix + message + "\n" + stack +
bodySnippet`, where the body snippet is appended only for a truthy
body. The indentation whitespace of `JSON.stringify(body, null, 2)` is
abstracted by `jsonStringify`; no property below depends on it. -/
def formatErrorMsg (message : String) (stack : String)
    (responseBody : Option JsValue) (errorCode : Option String) : String :=
  let bodySnippet :=
    match responseBody with
    | Option.some b =>
      if jsTruthy b then "\nResponse Body:\n" ++ jsonStringify b else ""
    | Option.none => ""
  let codeTag :=
    match errorCode with
    | Option.some c => "[" ++ c ++ "] "
    | Option.none => ""
  codeTag ++ message ++ "\n" ++ stack ++ bodySnippet

/-- Return `results[0]`: the first match or JS `undefined`. -/
def firstOrUndefined : List JsValue → JsValue
  | [] => .vUndefined
  | x :: _ => x

/-- Source `expectBody(response, path, expected, ...)`
(`src/assertions/assertions.ts` lines 32-52). `results` is the output
of the external JSONPath capability on `(path, response.data)`. The
check fails iff there is no match or the first match is not strictly
equal to `expected`; on failure the raised message is the formatted
error whose stack embeds the interpolated inner message. -/
def expectBody (path : String) (results : List JsValue) (expected : JsValue)
    (responseData : JsValue) : Except String Unit :=
  let actual := firstOrUndefined results
  if results.isEmpty || !strictEqb actual expected then
    let inner := "Expected value at '" ++ path ++ "' to be '" ++
      jsDisplay expected ++ "', got '" ++ jsDisplay actual ++ "'"
    .error (formatErrorMsg "Body assertion failed" (errorStack inner)
      (Option.some responseData) (Option.some "ERR_ASSERTION_BODY"))
  else
    .ok ()

/-- Source `expectStatus(response, status, ...)` (lines 10-27). -/
def expectStatus (r : AxiosResp) (status : Nat) : Except String Unit :=
  if r.status ≠ status then
    let inner := "Expected status " ++ toString status ++ ", got " ++ toString r.status
    .error (formatErrorMsg "Status assertion failed" (errorStack inner)
      (Option.some r.data) (Option.some "ERR_ASSERTION_STATUS"))
  else
    .ok ()

/-- Lowercase a string (model of `String.prototype.toLowerCase` for the
ASCII header names this library handles). -/
def lowerAscii (s : String) : String :=
  String.mk (s.data.map Char.toLower)

/-- Source `expectHeader(response, headerKey, expectedValue, ...)`
(lines 57-76): case-insensitive lookup, exact string comparison. A
missing header yields JS `undefined`, displayed as such. -/
def expectHeader (r : AxiosResp) (headerKey expectedValue : String) :
    Except String Unit :=
  let actual := objGet r.headers (lowerAscii headerKey)
  if actual ≠ Option.some expectedValue then
    let actualShown := match actual with
      | Option.some s => s
      | Option.none => "undefined"
    let inner := "Expected header '" ++ headerKey ++ "' to be '" ++
      expectedValue ++ "', got '" ++ actualShown ++ "'"
    .error (formatErrorMsg "Header assertion failed" (errorStack inner)
      (Option.some (.vObj (r.headers.map (fun kv => (kv.1, JsValue.vStr kv.2)))))
      (Option.some "ERR_ASSERTION_HEADER"))
  else
    .ok ()

/-- Source `expectBodyContains(response, fragment, ...)` (lines 81-103):
serialize the body once, then require the literal substring
`"key":serialized(value)` for every fragment entry. -/
def expectBodyContains (r : AxiosResp) (fragment : List (String × JsValue)) :
    Except String Unit :=
  let responseBody := jsonStringify r.data
  let allMatch := fragment.all (fun kv =>
    strContains responseBody (jsonQuote kv.1 ++ ":" ++ jsonStringify kv.2))
  if !allMatch then
    let inner := "Expected body to contain fragment: " ++ jsonStringify (.vObj fragment)
    .error (formatErrorMsg "Body fragment check failed" (errorStack inner)
      (Option.some r.data) (Option.some "ERR_ASSERTION_FRAGMENT"))
  else
    .ok ()

/-- Source `validateBody(response, schema, ...)` (lines 108-126). The
Joi schema engine is the external capability `schema.validate`,
reporting `none` or an error message. -/
def validateBody (r : AxiosResp) (schemaValidate : JsValue → Option String) :
    Except String Unit :=
  match schemaValidate r.data with
  | Option.some msg =>
    let inner := "Schema validation failed: " ++ msg
    .error (formatErrorMsg "Schema validation failed" (errorStack inner)
      (Option.some r.data) (Option.some "ERR_VALIDATION_SCHEMA"))
  | Option.none => .ok ()

/-! ## Response validator
(`src/core/response-validator.ts` and its full variant) -/

/-- Source `wasFailure()`: `!!this.error || !this.response`. -/
def wasFailure (v : ValidatorState) : Bool :=
  v.error.isSome || v.response.isNone

/-- Source `getErrorBody()` (full variant, lines 126-129):
`this.response?.data`, never raising. -/
def getErrorBody (v : ValidatorState) : Option JsValue :=
  v.response.map (fun r => r.data)

/-- Source `getRequestConfig()` (full variant, lines 41-47): spreads
`this.config!` (an absent config spreads to the empty record) with the
constructor-supplied proxy override and — on both protocol paths — the
constructor-supplied agent, never raising. -/
def getRequestConfig (v : ValidatorState) : RequestConfig :=
  let c := match v.config with
    | Option.some c => c
    | Option.none => {}
  let c := match v.proxyOverride with
    | Option.some p => { c with proxy := Option.some p }
    | Option.none => c
  match v.proxyAgent with
  | Option.some a => { c with httpAgent := Option.some a, httpsAgent := Option.some a }
  | Option.none => c

/-- Source `thenExpectStatus(status)`: guards on a missing response,
then delegates to `expectStatus` and returns `this`. -/
def thenExpectStatus (v : ValidatorState) (status : Nat) :
    Except String ValidatorState :=
  match v.response with
  | Option.none => .error "No response to validate status."
  | Option.some r => (expectStatus r status).map (fun _ => v)

/-- Source `thenExpectBody(path, expected)`: guards on a missing
response, then delegates to `expectBody`. `jsonPath` is the external
JSONPath capability `(path, doc) ↦ matches`. -/
def thenExpectBody (jsonPath : String → JsValue → List JsValue)
    (v : ValidatorState) (path : String) (expected : JsValue) :
    Except String ValidatorState :=
  match v.response with
  | Option.none => .error "No response to validate body."
  | Option.some r =>
    (expectBody path (jsonPath path r.data) expected r.data).map (fun _ => v)

/-- Source `thenExpectBodyContains(fragment)`. -/
def thenExpectBodyContains (v : ValidatorState)
    (fragment : List (String × JsValue)) : Except String ValidatorState :=
  match v.response with
  | Option.none => .error "No response to validate body."
  | Option.some r => (expectBodyContains r fragment).map (fun _ => v)

/-- Source `thenValidateBody(schema)`. -/
def thenValidateBody (v : ValidatorState)
    (schemaValidate : JsValue → Option String) : Except String ValidatorState :=
  match v.response with
  | Option.none => .error "No response to validate schema."
  | Option.some r => (validateBody r schemaValidate).map (fun _ => v)

/-- Source `thenExpectHeader(key, value)`. -/
def thenExpectHeader (v : ValidatorState) (key value : String) :
    Except String ValidatorState :=
  match v.response with
  | Option.none => .error "No response to validate header."
  | Option.some r => (expectHeader r key value).map (fun _ => v)

/-- Source `extract(response, path)` from `src/core/utils.ts` (lines
10-13): `result.length ? result[0] : undefined` over the external
JSONPath capability. -/
def extract (jsonPath : String → JsValue → List JsValue)
    (r : AxiosResp) (path : String) : JsValue :=
  let result := jsonPath path r.data
  match result with
  | [] => .vUndefined
  | x :: _ => x

/-- Source `thenExtract(path)` (`src/core/response-validator.ts` lines
78-82): guards on a missing response, then returns `extract`'s value
(which is never a raise). -/
def thenExtract (jsonPath : String → JsValue → List JsValue)
    (v : ValidatorState) (path : String) : Except String JsValue :=
  match v.response with
  | Option.none => .error "No response to extract from."
  | Option.some r => .ok (extract jsonPath r path)

/-- One assertion passed to `runAssertions`: it acts on the validator
and either returns or raises a message. -/
def AssertionFn : Type :=
  ValidatorState → Except String Unit

/-- The `for (const fn of assertions) try ... catch` loop of
`runAssertions` (full variant, lines 149-173): every function is
invoked in order and each raised message is collected. -/
def collectAssertionErrors (v : ValidatorState) : List AssertionFn → List String
  | [] => []
  | fn :: rest =>
    match fn v with
    | .ok _ => collectAssertionErrors v rest
    | .error e => e :: collectAssertionErrors v rest

/-- Source `runAssertions(assertions)` (full variant, lines 149-173):
run the collection loop; if any error was collected, raise one combined
failure whose message is the header plus the newline-joined collected
messages; otherwise return `this`. -/
def runAssertions (v : ValidatorState) (assertions : List AssertionFn) :
    Except String ValidatorState :=
  let errors := collectAssertionErrors v assertions
  if errors.length > 0 then
    .error ("Multiple assertion failures:\n" ++ String.intercalate "\n" errors)
  else
    .ok v

/-! ## Helper lemmas -/

/-- Any list is a prefix of itself extended to the right. -/
theorem seqStartsWith_append (l rest : List Char) :
    seqStartsWith (l ++ rest) l = true := by
  induction l with
  | nil => cases rest <;> rfl
  | cons a as ih => simp [seqStartsWith, ih]

/-- A block sitting between two others is found by `seqContains`. -/
theorem seqContains_of_middle (pre mid post : List Char) :
    seqContains (pre ++ (mid ++ post)) mid = true := by
  induction pre with
  | nil =>
    rw [List.nil_append]
    cases h : mid ++ post with
    | nil =>
      cases mid with
      | nil => rfl
      | cons b bs => simp at h
    | cons a rest =>
      have hs : seqStartsWith (a :: rest) mid = true := by
        rw [← h]
        exact seqStartsWith_append mid post
      rw [seqContains, hs, Bool.true_or]
  | cons a as ih =>
    rw [List.cons_append, seqContains, ih, Bool.or_true]

/-- String-level form: a middle block is a contained substring. -/
theorem strContains_of_middle (pre mid post : String) :
    strContains (pre ++ mid ++ post) mid = true := by
  have h : (pre ++ mid ++ post).data = pre.data ++ (mid.data ++ post.data) := by
    simp [String.data_append]
  rw [strContains, h]
  exact seqContains_of_middle pre.data mid.data post.data

/-- Overwriting an existing key in the map: the first entry with that
key now carries the new value. -/
theorem findMapOverwrite (k v : String) :
    ∀ m : List (String × String), m.any (fun kv => kv.1 = k) = true →
      (List.map (fun kv => if kv.1 = k then (kv.1, v) else kv) m).find?
          (fun kv => kv.1 = k) = Option.some (k, v) := by
  intro m
  induction m with
  | nil =>
    intro h
    simp at h
  | cons kv rest ih =>
    intro h
    rw [List.map_cons]
    by_cases hk : kv.1 = k
    · rw [if_pos hk, List.find?_cons_of_pos _ (by simp [hk]), hk]
    · rw [if_neg hk, List.find?_cons_of_neg _ (by simp [hk])]
      apply ih
      simp only [List.any_cons, Bool.or_eq_true, decide_eq_true_eq] at h
      rcases h with h' | h'
      · exact absurd h' hk
      · simpa using h'

/-- Appending a fresh key to the map: lookup finds the appended entry. -/
theorem findAppendNewKey (k v : String) :
    ∀ m : List (String × String), m.any (fun kv => kv.1 = k) = false →
      (m ++ [(k, v)]).find? (fun kv => kv.1 = k) = Option.some (k, v) := by
  intro m
  induction m with
  | nil =>
    intro _
    simp [List.find?]
  | cons hd rest ih =>
    intro h
    have hk : (decide (hd.1 = k)) = false := by
      cases hdec : decide (hd.1 = k)
      · rfl
      · rw [List.any_cons, hdec, Bool.true_or] at h
        exact absurd h (by simp)
    have hrest : rest.any (fun kv => kv.1 = k) = false := by
      rw [List.any_cons, hk, Bool.false_or] at h
      exact h
    rw [List.cons_append, List.find?_cons_of_neg _ (by simp_all), ih hrest]

/-- Overwrite-then-read on the header map returns the written value. -/
theorem objGet_objSet (m : List (String × String)) (k v : String) :
    objGet (objSet m k v) k = Option.some v := by
  unfold objSet objGet
  by_cases h : m.any (fun kv => kv.1 = k)
  · rw [if_pos h, findMapOverwrite k v m h]
    rfl
  · rw [if_neg h, findAppendNewKey k v m (Bool.eq_false_iff.mpr h)]
    rfl

/-- The collection loop of `runAssertions` computes exactly the ordered
`filterMap` of the raised messages. -/
theorem collectAssertionErrors_eq_filterMap (v : ValidatorState)
    (fns : List AssertionFn) :
    collectAssertionErrors v fns =
      fns.filterMap (fun fn =>
        match fn v with
        | .ok _ => Option.none
        | .error e => Option.some e) := by
  induction fns with
  | nil => rfl
  | cons fn rest ih =>
    rw [collectAssertionErrors, List.filterMap_cons]
    cases fn v <;> simp [ih]

/-! ## Claim theorems -/

/-- C1: for every HTTP method and endpoint, `RequestExecutor.send`
always resolves and never rejects: a served response — of any status
code, non-2xx included, because `send` installs
`validateStatus: () => true` — yields a Success-state validator holding
that response with no captured error, while a transport raise (DNS,
connection, timeout, cancellation) is captured as data inside a
Failed-state validator instead of propagating. -/
theorem c1_send_always_resolves (config : RequestConfig) (logLevel : LogLevel)
    (logToFile : Bool) (method endpoint : String) :
    (∀ r : AxiosResp,
      axiosRequest (fun _ => true) (.respond r) = .ok r ∧
      (RequestExecutor.send config logLevel logToFile method endpoint
          (.respond r)).response = Option.some r ∧
      (RequestExecutor.send config logLevel logToFile method endpoint
          (.respond r)).error = Option.none ∧
      wasFailure (RequestExecutor.send config logLevel logToFile method endpoint
          (.respond r)) = false) ∧
    (∀ msg : String,
      (RequestExecutor.send config logLevel logToFile method endpoint
          (.fail msg)).error = Option.some { message := msg } ∧
      (RequestExecutor.send config logLevel logToFile method endpoint
          (.fail msg)).response = Option.none ∧
      wasFailure (RequestExecutor.send config logLevel logToFile method endpoint
          (.fail msg)) = true) :=
  ⟨fun _ => ⟨rfl, rfl, rfl, rfl⟩, fun _ => ⟨rfl, rfl, rfl⟩⟩

/-- C2 (failing input): setting a Classic proxy and then a URL proxy
leaves the stale classic directive in `config.proxy` while the agent is
installed, so both directive forms are active at once — `applyProxy`'s
URL branch clears `proxyOverride` but never deletes `config.proxy`,
though the mutual-exclusion intent is explicit in the classic branch
and in `clearProxy`. -/
theorem c2_stale_classic_directive_after_url :
    ∃ st1 st2 : BuilderState,
      setProxy {} (.classic { host := Option.some "proxy.local",
                              port := Option.some 8080 }) = .ok st1 ∧
      setProxy st1 (.url "http://tunnel.local:3128") = .ok st2 ∧
      st2.proxyAgent = Option.some ⟨"http://tunnel.local:3128"⟩ ∧
      st2.proxyOverride = Option.none ∧
      st2.config.proxy = Option.some { host := Option.some "proxy.local",
                                       port := Option.some 8080 } :=
  ⟨_, _, rfl, rfl, rfl, rfl, rfl⟩

/-- C3 (failing input): after a transport failure the executor calls
`logError`, which requests the entry at required level `"debug"`; under
`shouldLog(current >= required)` the error entry is therefore emitted
only when the configured level is `debug`, and is suppressed at `info`
(the default) and `none` — contrary to the unconditional-logging claim
and to `logError`'s own comment. -/
theorem c3_transport_failure_log_suppressed_below_debug :
    sendLogEvents .info (.fail "getaddrinfo ENOTFOUND api.example.com") =
      ["Request"] ∧
    sendLogEvents .none (.fail "getaddrinfo ENOTFOUND api.example.com") = [] ∧
    sendLogEvents .debug (.fail "getaddrinfo ENOTFOUND api.example.com") =
      ["Request", "Request Failed"] :=
  ⟨rfl, rfl, rfl⟩

/-- C4 (counterexample): `expectBody` does not require exactly one
JSONPath match — against body `[1,1]` the path `$[*]` yields the two
matches `[1,1]`, yet the assertion passes because only `results[0]` is
compared, falsifying the pass-iff-exactly-one-match claim. -/
theorem c4_counterexample_two_matches_pass :
    expectBody "$[*]" [JsValue.vNum 1, JsValue.vNum 1] (JsValue.vNum 1)
      (JsValue.vArr [JsValue.vNum 1, JsValue.vNum 1]) = .ok () ∧
    [JsValue.vNum 1, JsValue.vNum 1].length ≠ 1 :=
  ⟨rfl, by decide⟩

/-- C4 (amended): `thenExpectBody(path, expected)` passes iff the
JSONPath evaluation yields at least one match and the *first* match
strictly equals `expected`; on failure the raised message contains both
the expected and the actual (first-match or `undefined`) value. -/
theorem c4_expectBody_first_match_and_message (path : String)
    (results : List JsValue) (expected responseData : JsValue) :
    (expectBody path results expected responseData = .ok () ↔
      results ≠ [] ∧ strictEqb (firstOrUndefined results) expected = true) ∧
    (∀ msg, expectBody path results expected responseData = .error msg →
      strContains msg (jsDisplay expected) = true ∧
      strContains msg (jsDisplay (firstOrUndefined results)) = true) := by
  constructor
  · unfold expectBody
    rcases results with _ | ⟨x, rest⟩
    · simp [firstOrUndefined]
    · by_cases hs : strictEqb (firstOrUndefined (x :: rest)) expected = true <;>
        simp [hs, firstOrUndefined]
  · intro msg hmsg
    unfold expectBody at hmsg
    by_cases hc : (results.isEmpty || !strictEqb (firstOrUndefined results) expected) = true
    · rw [if_pos hc] at hmsg
      have hmsg' : msg =
          "[ERR_ASSERTION_BODY] " ++ "Body assertion failed" ++ "\n" ++
            ("Error: " ++ ("Expected value at '" ++ path ++ "' to be '" ++
              jsDisplay expected ++ "', got '" ++
              jsDisplay (firstOrUndefined results) ++ "'")) ++
            (if jsTruthy responseData then
              "\nResponse Body:\n" ++ jsonStringify responseData
            else "") := by
        have := Except.error.inj hmsg
        rw [← this]
        rfl
      constructor
      · rw [hmsg']
        have assoc : "[ERR_ASSERTION_BODY] " ++ "Body assertion failed" ++ "\n" ++
            ("Error: " ++ ("Expected value at '" ++ path ++ "' to be '" ++
              jsDisplay expected ++ "', got '" ++
              jsDisplay (firstOrUndefined results) ++ "'")) ++
            (if jsTruthy responseData then
              "\nResponse Body:\n" ++ jsonStringify responseData
            else "") =
            ("[ERR_ASSERTION_BODY] " ++ "Body assertion failed" ++ "\n" ++
              "Error: " ++ "Expected value at '" ++ path ++ "' to be '") ++
            jsDisplay expected ++
            ("', got '" ++ jsDisplay (firstOrUndefined results) ++ "'" ++
              (if jsTruthy responseData then
                "\nResponse Body:\n" ++ jsonStringify responseData
              else "")) := by
          simp [String.ext_iff, String.data_append]
        rw [assoc]
        exact strContains_of_middle _ _ _
      · rw [hmsg']
        have assoc : "[ERR_ASSERTION_BODY] " ++ "Body assertion failed" ++ "\n" ++
            ("Error: " ++ ("Expected value at '" ++ path ++ "' to be '" ++
              jsDisplay expected ++ "', got '" ++
              jsDisplay (firstOrUndefined results) ++ "'")) ++
            (if jsTruthy responseData then
              "\nResponse Body:\n" ++ jsonStringify responseData
            else "") =
            ("[ERR_ASSERTION_BODY] " ++ "Body assertion failed" ++ "\n" ++
              "Error: " ++ "Expected value at '" ++ path ++ "' to be '" ++
              jsDisplay expected ++ "', got '") ++
            jsDisplay (firstOrUndefined results) ++
            ("'" ++
              (if jsTruthy responseData then
                "\nResponse Body:\n" ++ jsonStringify responseData
              else "")) := by
          simp [String.ext_iff, String.data_append]
        rw [assoc]
        exact strContains_of_middle _ _ _
    · rw [if_neg hc] at hmsg
      exact absurd hmsg (by simp)

/-- C4 (witness for the amended theorem): concrete instance of the spec
example — `thenExpectBody("$.id", 1)` against body `\x7b "id": 2 \x7d`
fails and its message contains both `1` and `2`. -/
theorem c4_expectBody_witness :
    strContains
      ("[ERR_ASSERTION_BODY] Body assertion failed\nError: Expected value at " ++
        "'$.id' to be '1', got '2'\nResponse Body:\n\x7b\"id\":2\x7d")
      (jsDisplay (JsValue.vNum 1)) = true ∧
    strContains
      ("[ERR_ASSERTION_BODY] Body assertion failed\nError: Expected value at " ++
        "'$.id' to be '1', got '2'\nResponse Body:\n\x7b\"id\":2\x7d")
      (jsDisplay (firstOrUndefined [JsValue.vNum 2])) = true :=
  (c4_expectBody_first_match_and_message "$.id" [JsValue.vNum 2]
      (JsValue.vNum 1) (JsValue.vObj [("id", JsValue.vNum 2)])).2 _ rfl

/-- C5: `runAssertions` is soft-fail aggregation — every assertion in
the list is invoked against the validator in order with each raised
message collected (the loop equals the ordered `filterMap` of the
failures); it returns the validator itself iff every assertion passed,
and otherwise raises the single combined failure whose message is the
newline-join of all collected messages in call order under the
`"Multiple assertion failures:"` header. -/
theorem c5_runAssertions_soft_fail_aggregation (v : ValidatorState)
    (assertions : List AssertionFn) :
    (collectAssertionErrors v assertions =
      assertions.filterMap (fun fn =>
        match fn v with
        | .ok _ => Option.none
        | .error e => Option.some e)) ∧
    (runAssertions v assertions = .ok v ↔
      ∀ fn ∈ assertions, fn v = .ok ()) ∧
    (collectAssertionErrors v assertions ≠ [] →
      runAssertions v assertions =
        .error ("Multiple assertion failures:\n" ++
          String.intercalate "\n" (collectAssertionErrors v assertions))) := by
  refine ⟨collectAssertionErrors_eq_filterMap v assertions, ?_, ?_⟩
  · unfold runAssertions
    by_cases h : collectAssertionErrors v assertions = []
    · rw [h]
      simp only [List.length_nil, gt_iff_lt, lt_self_iff_false, if_neg,
        not_false_eq_true]
      constructor
      · intro _ fn hfn
        induction assertions with
        | nil => simp at hfn
        | cons f rest ih =>
          rw [collectAssertionErrors] at h
          rcases List.mem_cons.mp hfn with heq | hmem
          · subst heq
            cases hf : fn v with
            | ok u => cases u; rfl
            | error e => rw [hf] at h; simp at h
          · apply ih _ hmem
            cases hf : f v with
            | ok _ => rw [hf] at h; exact h
            | error e => rw [hf] at h; simp at h
      · intro _
        trivial
    · have hlen : (collectAssertionErrors v assertions).length > 0 :=
        List.length_pos.mpr h
      rw [if_pos hlen]
      constructor
      · intro hcontr
        exact absurd hcontr (by simp)
      · intro hall
        exfalso
        apply h
        rw [collectAssertionErrors_eq_filterMap]
        apply List.filterMap_eq_nil_iff.mpr
        intro fn hfn
        rw [hall fn hfn]
  · intro h
    unfold runAssertions
    rw [if_pos (List.length_pos.mpr h)]

/-- C5 (witness): the spec's aggregation example — two failing
assertions around a passing one produce one combined failure carrying
both messages, newline-joined, in call order. -/
theorem c5_runAssertions_witness :
    runAssertions
      { response := Option.none, error := Option.none, config := Option.none }
      [fun _ => .error "first failure", fun _ => .ok (),
       fun _ => .error "second failure"] =
    .error "Multiple assertion failures:\nfirst failure\nsecond failure" := by
  have h := (c5_runAssertions_soft_fail_aggregation
    { response := Option.none, error := Option.none, config := Option.none }
    [fun _ => .error "first failure", fun _ => .ok (),
     fun _ => .error "second failure"]).2.2 (by decide)
  exact h.trans (by rfl)

/-- C6: `setProxy` validates before mutating — every URL string not
matching `^https?://` is rejected with the invalid-proxy-URL error and
every classic object missing `host` or `port` with the
invalid-proxy-config error; the error return carries no new builder
state, and in the source the throw precedes the `applyProxy` call, so
no state is modified before validation succeeds. -/
theorem c6_setProxy_validation (st : BuilderState) :
    (∀ s : String, matchesHttpScheme s = false →
      setProxy st (.url s) = .error .invalidProxyUrl) ∧
    (∀ p : ClassicProxy, p.host = Option.none ∨ p.port = Option.none →
      setProxy st (.classic p) = .error .invalidProxyConfig) := by
  constructor
  · intro s h
    simp [setProxy, h]
  · intro p h
    have hh : p.hostTruthy = false ∨ p.portTruthy = false := by
      rcases h with h | h
      · exact Or.inl (by unfold ClassicProxy.hostTruthy; rw [h])
      · exact Or.inr (by unfold ClassicProxy.portTruthy; rw [h])
    rcases hh with hh | hh <;> simp [setProxy, hh]

/-- C6 (witness): a scheme-less proxy string and a port-less classic
object are both rejected. -/
theorem c6_setProxy_witness :
    setProxy {} (.url "socks5://proxy.local:1080") = .error .invalidProxyUrl ∧
    setProxy {} (.classic { host := Option.some "proxy.local" }) =
      .error .invalidProxyConfig :=
  ⟨(c6_setProxy_validation {}).1 "socks5://proxy.local:1080" (by decide),
   (c6_setProxy_validation {}).2 { host := Option.some "proxy.local" }
     (Or.inr rfl)⟩

/-- C7 (counterexample): for the https proxy URL, the builder's internal
config leaves the HTTP-path agent unset, but `getConfig` — the effective
configuration exposed at send time — reports the agent bound on the
HTTP path as well, falsifying the claim's "including in getConfig"
part. -/
theorem c7_counterexample_getConfig_rebinds_http_path :
    ∃ st : BuilderState,
      setProxy {} (.url "https://secure.proxy:8443") = .ok st ∧
      st.config.httpAgent = Option.none ∧
      (getConfig st).httpAgent = Option.some ⟨"https://secure.proxy:8443"⟩ :=
  ⟨_, rfl, rfl, rfl⟩

/-- C7 (amended): a URL proxy is bound protocol-aware in the builder's
internal request config (an https URL sets only the HTTPS-path agent,
an http URL only the HTTP-path agent), but `getConfig` re-binds the
active agent on both protocol paths. -/
theorem c7_protocol_aware_config_but_getConfig_both (st : BuilderState)
    (s : String) (h : matchesHttpScheme s = true) :
    ∃ st2 : BuilderState,
      setProxy st (.url s) = .ok st2 ∧
      (strStartsWith s "https://" = true →
        st2.config.httpsAgent = Option.some ⟨s⟩ ∧
        st2.config.httpAgent = Option.none) ∧
      (strStartsWith s "https://" = false →
        st2.config.httpAgent = Option.some ⟨s⟩ ∧
        st2.config.httpsAgent = Option.none) ∧
      (getConfig st2).httpAgent = Option.some ⟨s⟩ ∧
      (getConfig st2).httpsAgent = Option.some ⟨s⟩ := by
  refine ⟨applyProxy st (Option.some (.url s)), ?_, ?_, ?_, ?_, ?_⟩
  · simp [setProxy, h]
  · intro hh
    simp [applyProxy, hh]
  · intro hh
    simp [applyProxy, hh]
  · simp [applyProxy, getConfig]
  · simp [applyProxy, getConfig]

/-- C7 (witness for the amended theorem): concrete https instance. -/
theorem c7_protocol_aware_witness :
    ∃ st2 : BuilderState,
      setProxy {} (.url "https://secure.example") = .ok st2 ∧
      (strStartsWith "https://secure.example" "https://" = true →
        st2.config.httpsAgent = Option.some ⟨"https://secure.example"⟩ ∧
        st2.config.httpAgent = Option.none) ∧
      (strStartsWith "https://secure.example" "https://" = false →
        st2.config.httpAgent = Option.some ⟨"https://secure.example"⟩ ∧
        st2.config.httpsAgent = Option.none) ∧
      (getConfig st2).httpAgent = Option.some ⟨"https://secure.example"⟩ ∧
      (getConfig st2).httpsAgent = Option.some ⟨"https://secure.example"⟩ :=
  c7_protocol_aware_config_but_getConfig_both {} "https://secure.example"
    (by decide)

/-- C8: `givenBody` dispatches on the content type — JSON stores string
payloads verbatim and JSON-serializes the rest; form-urlencoded stores
strings verbatim and form-encodes maps (concretely, `{ x: 1 }`
encodes to `"x=1"`); any other non-multipart content type stores the
payload unmodified; and in every non-multipart case the `Content-Type`
header is set to the given content type, overwriting any prior value
for that key. -/
theorem c8_givenBody_content_type_dispatch (fileExists : JsValue → Bool)
    (boundary : String) (st : BuilderState) (body : JsValue) :
    ((givenBody fileExists boundary st body "application/json").config.data =
        Option.some (.str (match body with
          | .vStr s => s
          | b => jsonStringify b)) ∧
      objGet (givenBody fileExists boundary st body
          "application/json").config.headers "Content-Type" =
        Option.some "application/json") ∧
    ((givenBody fileExists boundary st body
        "application/x-www-form-urlencoded").config.data =
        Option.some (.str (match body with
          | .vStr s => s
          | b => qsStringify b)) ∧
      objGet (givenBody fileExists boundary st body
          "application/x-www-form-urlencoded").config.headers "Content-Type" =
        Option.some "application/x-www-form-urlencoded") ∧
    ((givenBody fileExists boundary st (.vObj [("x", .vNum 1)])
        "application/x-www-form-urlencoded").config.data =
      Option.some (.str "x=1")) ∧
    (∀ ct : String, ct ≠ "application/json" →
      ct ≠ "application/x-www-form-urlencoded" → ct ≠ "multipart/form-data" →
      (givenBody fileExists boundary st body ct).config.data =
        Option.some (.val body) ∧
      objGet (givenBody fileExists boundary st body ct).config.headers
        "Content-Type" = Option.some ct) := by
  refine ⟨⟨?_, ?_⟩, ⟨?_, ?_⟩, ?_, ?_⟩
  · simp [givenBody]
  · simp [givenBody, objGet_objSet]
  · simp [givenBody]
  · simp [givenBody, objGet_objSet]
  · simp [givenBody]
    rfl
  · intro ct h1 h2 h3
    refine ⟨?_, ?_⟩
    · simp [givenBody, h1, h2, h3]
    · simp [givenBody, h1, h2, h3, objGet_objSet]

/-- C8 (witness): a `text/plain` payload passes through unmodified and
the `Content-Type` header is set. -/
theorem c8_givenBody_witness :
    (givenBody (fun _ => false) "bd" {} (JsValue.vStr "raw text")
        "text/plain").config.data =
      Option.some (.val (JsValue.vStr "raw text")) ∧
    objGet ((givenBody (fun _ => false) "bd" {} (JsValue.vStr "raw text")
        "text/plain").config.headers) "Content-Type" =
      Option.some "text/plain" :=
  (c8_givenBody_content_type_dispatch (fun _ => false) "bd" {}
      (JsValue.vStr "raw text")).2.2.2 "text/plain"
    (by decide) (by decide) (by decide)

/-- C9: a validator built from a transport failure (no response
obtained) makes every per-assertion operation fail immediately with its
"no response" message, while the inspection operations return normally:
`wasFailure` is `true`, `getErrorBody` is the absent body, and
`getRequestConfig` returns the request config that was sent. -/
theorem c9_failed_state_guards_and_inspectors (config : RequestConfig)
    (logLevel : LogLevel) (logToFile : Bool) (method endpoint msg : String)
    (jsonPath : String → JsValue → List JsValue) (status : Nat)
    (path : String) (expected : JsValue) (fragment : List (String × JsValue))
    (schemaValidate : JsValue → Option String) (key value : String) :
    thenExpectStatus (RequestExecutor.send config logLevel logToFile method
        endpoint (.fail msg)) status =
      .error "No response to validate status." ∧
    thenExpectBody jsonPath (RequestExecutor.send config logLevel logToFile
        method endpoint (.fail msg)) path expected =
      .error "No response to validate body." ∧
    thenExpectBodyContains (RequestExecutor.send config logLevel logToFile
        method endpoint (.fail msg)) fragment =
      .error "No response to validate body." ∧
    thenValidateBody (RequestExecutor.send config logLevel logToFile method
        endpoint (.fail msg)) schemaValidate =
      .error "No response to validate schema." ∧
    thenExpectHeader (RequestExecutor.send config logLevel logToFile method
        endpoint (.fail msg)) key value =
      .error "No response to validate header." ∧
    wasFailure (RequestExecutor.send config logLevel logToFile method
        endpoint (.fail msg)) = true ∧
    getErrorBody (RequestExecutor.send config logLevel logToFile method
        endpoint (.fail msg)) = Option.none ∧
    getRequestConfig (RequestExecutor.send config logLevel logToFile method
        endpoint (.fail msg)) =
      { config with method := Option.some method, url := Option.some endpoint } :=
  ⟨rfl, rfl, rfl, rfl, rfl, rfl, rfl, rfl⟩

/-- C10: on a validator holding a response, `thenExtract` returns the
first JSONPath match when at least one exists and `undefined` when none
does; it never raises merely because the path has no matches. -/
theorem c10_thenExtract_first_match_or_undefined
    (jsonPath : String → JsValue → List JsValue) (v : ValidatorState)
    (r : AxiosResp) (path : String) (h : v.response = Option.some r) :
    thenExtract jsonPath v path = .ok (extract jsonPath r path) ∧
    (jsonPath path r.data = [] →
      thenExtract jsonPath v path = .ok JsValue.vUndefined) ∧
    (∀ x xs, jsonPath path r.data = x :: xs →
      thenExtract jsonPath v path = .ok x) := by
  unfold thenExtract
  rw [h]
  refine ⟨rfl, ?_, ?_⟩
  · intro hnil
    simp [extract, hnil]
  · intro x xs hcons
    simp [extract, hcons]

/-- C10 (witness): a path with no matches yields `undefined`, not a
raise. -/
theorem c10_thenExtract_witness :
    thenExtract (fun _ _ => [])
      { response := Option.some { status := 200 }, error := Option.none,
        config := Option.none } "$.missing" = .ok JsValue.vUndefined :=
  (c10_thenExtract_first_match_or_undefined (fun _ _ => [])
      { response := Option.some { status := 200 }, error := Option.none,
        config := Option.none } { status := 200 } "$.missing" rfl).2.1 rfl

end FluentRest
